import Mathlib

/-!
Verification of `rename_folder.py` (ctrld-sync): a batch client that renames
folders in Control D profiles by adding an "HA-" prefix.  The Python module is
shallowly embedded below: the HTTP transport is a function from the attempt
number to the outcome of that attempt, Python exceptions are an explicit error
type threaded through `Except`, and the JSON values handled by the listing code
are an inductive `Json` type with Python truthiness, `dict.get`, subscript and
`str.strip` modelled explicitly.
-/

/-- The Python exceptions that can arise in the module.  `httpError` stands for
the whole `httpx.HTTPError` hierarchy (`raise_for_status`, timeouts, transport
errors); `nameError` is raised when an unbound global name is evaluated;
`noneReturned` marks the (unreachable) fall-through of the retry loop where the
Python function would return `None`. -/
inductive PyErr : Type where
  | httpError
  | keyError
  | nameError
  | attributeError
  | typeError
  | noneReturned
deriving DecidableEq

/-- Outcome of a single HTTP request attempt against the remote transport:
either a successful response carrying a payload, or a raised
`httpx.HTTPError`/`httpx.TimeoutException`. -/
inductive Attempt (α : Type) : Type where
  | ok (a : α)
  | fail

/-- What one call of `_api_get` / `_api_put` did: how many HTTP attempts were
issued, which sleep durations (seconds) were actually performed, and the final
result (a response, or a raised exception). -/
structure CallTrace (α : Type) : Type where
  attempts : Nat
  sleeps : List Nat
  result : Except PyErr α

/-- Constant `MAX_RETRIES = 3` (line 33). -/
def MAX_RETRIES : Nat := 3

/-- Constant `RETRY_DELAY = 1` seconds (line 34). -/
def RETRY_DELAY : Nat := 1

/-- The call `time.sleep(wait_time)` as executed by the module (lines 63 and 78).  The
module imports only `os`, `logging`, `httpx`, `dotenv.load_dotenv` and
`typing`; the global name `time` is never bound, so evaluating the expression
`time.sleep` raises `NameError` before any sleeping happens. -/
def timeSleep (_waitTime : Nat) : Except PyErr Unit :=
  .error .nameError

/-- The `for attempt in range(MAX_RETRIES)` retry loop shared verbatim by
`_api_get` (lines 52-63) and `_api_put` (lines 67-78).  `req n` is the outcome
of the HTTP request on loop iteration `n`; `fuel` is the number of loop
iterations remaining (`MAX_RETRIES - attempt`).  On a failed attempt: if it was
the last one, the caught `httpx` exception is re-raised; otherwise
`wait_time = RETRY_DELAY * (2 ** attempt)` is computed and `time.sleep` is
called (which raises `NameError`, see `timeSleep`).  Falling off the loop would
return Python `None`, modelled as `noneReturned`. -/
def retryFrom (req : Nat → Attempt α) (attempt : Nat) : Nat → CallTrace α
  | 0 => { attempts := 0, sleeps := [], result := .error .noneReturned }
  | fuel + 1 =>
    match req attempt with
    | .ok a => { attempts := 1, sleeps := [], result := .ok a }
    | .fail =>
      if attempt = MAX_RETRIES - 1 then
        { attempts := 1, sleeps := [], result := .error .httpError }
      else
        match timeSleep (RETRY_DELAY * 2 ^ attempt) with
        | .error e => { attempts := 1, sleeps := [], result := .error e }
        | .ok _ =>
          let t := retryFrom req (attempt + 1) fuel
          { attempts := t.attempts + 1,
            sleeps := RETRY_DELAY * 2 ^ attempt :: t.sleeps,
            result := t.result }

/-- Function `_api_get(url)` (lines 50-63): run the retry loop from attempt 0.  The
response payload is the JSON value the caller obtains from `.json()`. -/
def api_get (req : Nat → Attempt α) : CallTrace α :=
  retryFrom req 0 MAX_RETRIES

/-- Function `_api_put(url, data)` (lines 65-78): same retry loop; the response payload
is irrelevant to all callers. -/
def api_put (req : Nat → Attempt Unit) : CallTrace Unit :=
  retryFrom req 0 MAX_RETRIES

/-- JSON values as Python objects: `None`, booleans, integers, strings, lists
and dicts (association lists in insertion order, keys unique). -/
inductive Json : Type where
  | null
  | bool (b : Bool)
  | num (n : Int)
  | str (s : String)
  | arr (elems : List Json)
  | obj (fields : List (String × Json))

/-- Python dict lookup on an association list: first matching key. -/
def alookup (k : String) : List (String × Json) → Option Json
  | [] => none
  | (k1, v) :: rest => if k1 = k then some v else alookup k rest

/-- Python truthiness of a JSON value (`if f.get("group")`, `if not
existing_folders`, ...). -/
def pyTruthy : Json → Bool
  | .null => false
  | .bool b => b
  | .num n => decide (n ≠ 0)
  | .str s => decide (s ≠ "")
  | .arr elems => !elems.isEmpty
  | .obj fields => !fields.isEmpty

/-- Python `d.get(key, default)`: raises `AttributeError` when the receiver is
not a dict. -/
def pyDictGet (j : Json) (k : String) (default : Json) : Except PyErr Json :=
  match j with
  | .obj fields => .ok ((alookup k fields).getD default)
  | _ => .error .attributeError

/-- Python subscript `d[key]` on a parsed JSON value: `KeyError` when the key
is missing from a dict, `TypeError` on non-subscriptable values. -/
def pySubscript (j : Json) (k : String) : Except PyErr Json :=
  match j with
  | .obj fields =>
    match alookup k fields with
    | some v => .ok v
    | none => .error .keyError
  | _ => .error .typeError

/-- Python iteration (`for f in folders`): lists yield their elements, dicts
their keys, strings their characters; other values raise `TypeError`. -/
def pyIter : Json → Except PyErr (List Json)
  | .arr elems => .ok elems
  | .obj fields => .ok (fields.map (fun kv => Json.str kv.1))
  | .str s => .ok (s.data.map (fun c => Json.str (String.mk [c])))
  | _ => .error .typeError

/-- The characters Python `str.strip()` removes (ASCII whitespace; exotic
Unicode space code points are not modelled). -/
def pyWhitespace (c : Char) : Bool :=
  c.isWhitespace || c = '\x0b' || c = '\x0c'

/-- Python `str.strip()` on the character list of a string. -/
def pyStripL (l : List Char) : List Char :=
  ((l.dropWhile pyWhitespace).reverse.dropWhile pyWhitespace).reverse

/-- Python `str.strip()`. -/
def pyStrip (s : String) : String :=
  String.mk (pyStripL s.data)

/-- Bool-valued list-prefix test used to model Python `str.startswith`. -/
def isPre : List Char → List Char → Bool
  | [], _ => true
  | _ :: _, [] => false
  | c :: cs, d :: ds => c = d && isPre cs ds

/-- Python `s.startswith(p)`. -/
def pyStartsWith (s p : String) : Bool :=
  isPre p.data s.data

/-- Python `.strip()` called on a JSON value (`f["group"].strip()`): raises
`AttributeError` unless the value is a string. -/
def pyStripJson : Json → Except PyErr String
  | .str s => .ok (pyStrip s)
  | _ => .error .attributeError

/-- One assignment `d[k] = v` into a Python dict: updates the value in place
when the key is present (keeping its position), otherwise appends. -/
def dictInsert : List (String × Json) → String → Json → List (String × Json)
  | [], k, v => [(k, v)]
  | (k1, v1) :: rest, k, v =>
    if k1 = k then (k1, v) :: rest else (k1, v1) :: dictInsert rest k v

/-- Insert a list of key-value pairs left to right (how a dict comprehension
accumulates its entries). -/
def insertAll (acc : List (String × Json)) (ps : List (String × Json)) :
    List (String × Json) :=
  ps.foldl (fun d kv => dictInsert d kv.1 kv.2) acc

/-- The dict comprehension of `list_existing_folders` (line 85):
`{f["group"].strip(): f["PK"] for f in folders if f.get("group") and
f.get("PK")}`, with Python evaluation order (the guard short-circuits, then the
key and value expressions are evaluated) and Python exceptions propagating. -/
def listingFold (acc : List (String × Json)) :
    List Json → Except PyErr (List (String × Json))
  | [] => .ok acc
  | f :: rest =>
    match pyDictGet f "group" Json.null with
    | .error e => .error e
    | .ok g =>
      if !pyTruthy g then listingFold acc rest
      else
        match pyDictGet f "PK" Json.null with
        | .error e => .error e
        | .ok pk =>
          if !pyTruthy pk then listingFold acc rest
          else
            match pySubscript f "group" with
            | .error e => .error e
            | .ok gv =>
              match pyStripJson gv with
              | .error e => .error e
              | .ok key =>
                match pySubscript f "PK" with
                | .error e => .error e
                | .ok v => listingFold (dictInsert acc key v) rest

/-- Body of the `try` block of `list_existing_folders` (lines 83-85): fetch the
groups listing, drill into `body.groups` with defaults, iterate and build the
name-to-id dict.  The response payload of the GET is the already-decoded JSON
value (`.json()` is assumed to succeed; its decode errors are not modelled). -/
def listBody (t : Nat → Attempt Json) : Except PyErr (List (String × Json)) :=
  match (api_get t).result with
  | .error e => .error e
  | .ok data =>
    match pyDictGet data "body" (Json.obj []) with
    | .error e => .error e
    | .ok body =>
      match pyDictGet body "groups" (Json.arr []) with
      | .error e => .error e
      | .ok groups =>
        match pyIter groups with
        | .error e => .error e
        | .ok folders => listingFold [] folders

/-- Function `list_existing_folders(profile_id)` (lines 80-88): the `except
(httpx.HTTPError, KeyError)` clause converts exactly those two exception kinds
into an empty mapping; any other exception propagates. -/
def list_existing_folders (t : Nat → Attempt Json) :
    Except PyErr (List (String × Json)) :=
  match listBody t with
  | .ok d => .ok d
  | .error .httpError => .ok []
  | .error .keyError => .ok []
  | .error e => .error e

/-- The per-profile environment: the behaviour of the GET transport for the
groups listing, and of the PUT transport for each folder id (both indexed by
the attempt number of the respective retry loop). -/
structure World : Type where
  get : Nat → Attempt Json
  put : Json → Nat → Attempt Unit

/-- Record of one `_api_put` issued by `rename_folder`: the target folder id,
the `name` field of the payload, the number of HTTP attempts the retry loop
made, and the overall outcome of `rename_folder` (a returned bool, or a
propagated exception). -/
structure PutReq : Type where
  folderId : Json
  name : String
  attempts : Nat
  outcome : Except PyErr Bool

/-- Function `rename_folder(profile_id, folder_id, current_name)` (lines 90-102):
`new_name = f"HA-{current_name}"`, then a PUT; a raised `httpx.HTTPError` is
caught and turned into `False`, success returns `True`, and any other raised
exception propagates. -/
def rename_folder (w : World) (folder_id : Json) (current_name : String) :
    PutReq :=
  let tr := api_put (w.put folder_id)
  { folderId := folder_id,
    name := "HA-" ++ current_name,
    attempts := tr.attempts,
    outcome :=
      match tr.result with
      | .ok _ => .ok true
      | .error .httpError => .ok false
      | .error e => .error e }

/-- The `for name, folder_id in existing_folders.items()` loop of
`rename_folders_for_profile` (lines 116-119), with `cnt` the running
`success_count`.  Returns the final count, the PUT requests issued in order,
and the exception that aborted the loop, if any. -/
def renameLoop (w : World) (cnt : Nat) :
    List (String × Json) → Nat × List PutReq × Option PyErr
  | [] => (cnt, [], none)
  | (name, folder_id) :: rest =>
    if pyStartsWith name "HA-" then renameLoop w cnt rest
    else
      let req := rename_folder w folder_id name
      match req.outcome with
      | .ok true =>
        let r := renameLoop w (cnt + 1) rest
        (r.1, req :: r.2.1, r.2.2)
      | .ok false =>
        let r := renameLoop w cnt rest
        (r.1, req :: r.2.1, r.2.2)
      | .error e => (cnt, [req], some e)

/-- Body of the `try` block of `rename_folders_for_profile` (lines 109-122):
list the folders; an empty mapping is vacuous success; otherwise run the rename
loop and compare `success_count` with the number of names lacking the prefix.
Returns the PUT requests issued and the would-be return value or the raised
exception. -/
def profileBody (w : World) : List PutReq × Except PyErr Bool :=
  match list_existing_folders w.get with
  | .error e => ([], .error e)
  | .ok [] => ([], .ok true)
  | .ok (kv0 :: restFolders) =>
    let existing_folders := kv0 :: restFolders
    let r := renameLoop w 0 existing_folders
    match r.2.2 with
    | some e => (r.2.1, .error e)
    | none =>
      (r.2.1,
        .ok (decide (r.1 =
          (existing_folders.filter
            (fun kv => !pyStartsWith kv.1 "HA-")).length)))

/-- Function `rename_folders_for_profile(profile_id)` (lines 107-125): the
`except Exception` clause converts any raised exception into `False`. -/
def rename_folders_for_profile (w : World) : List PutReq × Bool :=
  match profileBody w with
  | (puts, .ok b) => (puts, b)
  | (puts, .error _) => (puts, false)

/-- Whether a rename outcome is a returned Python `True`. -/
def isOkTrue : Except PyErr Bool → Bool
  | .ok true => true
  | _ => false

/-- The successes counted by `success_count`: the PUTs whose `rename_folder`
returned `True`. -/
def successesIn (puts : List PutReq) : Nat :=
  (puts.filter (fun r => isOkTrue r.outcome)).length

/-- Total number of HTTP requests a profile run performs: the attempts of the
single listing GET plus the attempts of every PUT issued. -/
def profileHttpCalls (w : World) : Nat :=
  (api_get w.get).attempts +
    (((rename_folders_for_profile w).1.map PutReq.attempts).sum)

/-- Python `s.split(",")` on the character list of a string: splitting on every
comma, keeping empty pieces (so the empty string yields one empty piece). -/
def pySplitComma : List Char → List (List Char)
  | [] => [[]]
  | c :: rest =>
    match pySplitComma rest with
    | [] => [[]]
    | p :: ps => if c = ',' then [] :: p :: ps else (c :: p) :: ps

/-- Constant `PROFILE_IDS = [p.strip() for p in os.getenv("PROFILE", "").split(",") if
p.strip()]` (line 32), as a function of the value of the `PROFILE` environment
variable (defaulting to the empty string when absent). -/
def PROFILE_IDS (profileEnv : String) : List String :=
  (pySplitComma profileEnv.data).filterMap
    (fun p =>
      if (pyStripL p).isEmpty then none else some (String.mk (pyStripL p)))

/-- Python truthiness of `TOKEN = os.getenv("TOKEN")`: falsy when the variable
is absent (`None`) or empty. -/
def truthyOptStr : Option String → Bool
  | none => false
  | some s => decide (s ≠ "")

/-- Outcome of `main()`: the process exit status and the total number of HTTP
requests issued during the run. -/
structure MainResult : Type where
  exitCode : Nat
  httpCalls : Nat
deriving DecidableEq

/-- Function `main()` (lines 130-142): abort with `exit(1)` before any network activity
when the token or the profile list is missing/empty; otherwise process every
profile in order, count the fully successful ones, and exit 0 exactly when all
succeeded.  `ws pid` is the per-profile transport behaviour. -/
def mainRun (token : Option String) (profileEnv : String)
    (ws : String → World) : MainResult :=
  if truthyOptStr token = false ∨ PROFILE_IDS profileEnv = [] then
    { exitCode := 1, httpCalls := 0 }
  else
    let pids := PROFILE_IDS profileEnv
    let successes :=
      (pids.filter (fun pid => (rename_folders_for_profile (ws pid)).2)).length
    { exitCode := if successes = pids.length then 0 else 1,
      httpCalls := (pids.map (fun pid => profileHttpCalls (ws pid))).sum }

/-- A GET transport whose every attempt succeeds with the standard listing
shape `{"body": {"groups": records}}`. -/
def getterOf (records : List Json) : Nat → Attempt Json :=
  fun _ => .ok (Json.obj [("body", Json.obj [("groups", Json.arr records)])])

/-- The record-inclusion rule as the spec states it, for comparison with the
source-derived lister: a record is included only if it has both a non-empty
name field and a non-empty identifier field, and it is mapped under its name
trimmed of surrounding whitespace. -/
def specIncludedRecord : Json → Option (String × Json)
  | .obj fields =>
    match alookup "group" fields, alookup "PK" fields with
    | some (.str name), some (.str pk) =>
      if name ≠ "" ∧ pk ≠ "" then some (pyStrip name, Json.str pk) else none
    | _, _ => none
  | _ => none

/-- A field value is either absent or a string. -/
def strFieldOk : Option Json → Bool
  | none => true
  | some (.str _) => true
  | some _ => false

/-- A listing record is an object whose name and identifier fields, when
present, are strings (the shape the remote API contract describes). -/
def wfRecord : Json → Bool
  | .obj fields =>
    strFieldOk (alookup "group" fields) && strFieldOk (alookup "PK" fields)
  | _ => false

/-- First-defined alternative of two optional values. -/
def optOr : Option Json → Option Json → Option Json
  | some v, _ => some v
  | none, b => b

/-- A GET transport that fails on every attempt. -/
def failGetT : Nat → Attempt Json := fun _ => .fail

/-- A PUT transport that succeeds for every folder on every attempt. -/
def okPutT : Json → Nat → Attempt Unit := fun _ _ => .ok ()

/-- Per-profile behaviour where every listing returns an empty body and every
PUT succeeds. -/
def wsTrivial : String → World :=
  fun _ => { get := fun _ => .ok (Json.obj []), put := okPutT }

/-- A profile whose listing GET fails at the transport level. -/
def wGetFail : World := { get := failGetT, put := okPutT }

/-- A profile with one unprefixed folder whose rename succeeds. -/
def wOneFolder : World :=
  { get := getterOf [Json.obj [("group", Json.str "Ads"), ("PK", Json.str "g1")]],
    put := okPutT }

/-- A profile whose only folder already carries the prefix. -/
def wAllPrefixed : World :=
  { get := getterOf
      [Json.obj [("group", Json.str "HA-Social"), ("PK", Json.str "g2")]],
    put := okPutT }

/-- A profile with two unprefixed folders A and B where the PUT for folder id
g1 (folder A) fails at the transport level and the PUT for g2 (folder B) would
succeed. -/
def wPartialFail : World :=
  { get := getterOf
      [Json.obj [("group", Json.str "A"), ("PK", Json.str "g1")],
       Json.obj [("group", Json.str "B"), ("PK", Json.str "g2")]],
    put := fun fid _ =>
      match fid with
      | .str s => if s = "g1" then .fail else .ok ()
      | _ => .ok () }

/-- A profile whose only listing record has a whitespace-only name. -/
def singleRecordWorld (s pk : String) : World :=
  { get := getterOf [Json.obj [("group", Json.str s), ("PK", Json.str pk)]],
    put := okPutT }

/-- Two listing records whose trimmed names collide. -/
def c8recs : List Json :=
  [Json.obj [("group", Json.str " Ads "), ("PK", Json.str "g1")],
   Json.obj [("group", Json.str "Ads"), ("PK", Json.str "g2")]]

/-! ### Helper lemmas -/

theorem optOr_none (x : Option Json) : optOr x none = x := by
  cases x <;> rfl

theorem alookup_append (q : String) (l1 l2 : List (String × Json)) :
    alookup q (l1 ++ l2) = optOr (alookup q l1) (alookup q l2) := by
  induction l1 with
  | nil => rfl
  | cons kv rest ih =>
    obtain ⟨k1, v1⟩ := kv
    by_cases h : k1 = q <;> simp [alookup, h, ih, optOr]

theorem alookup_dictInsert (q k : String) (v : Json) :
    ∀ acc, alookup q (dictInsert acc k v) =
      if k = q then some v else alookup q acc := by
  intro acc
  induction acc with
  | nil => simp [dictInsert, alookup]
  | cons kv rest ih =>
    obtain ⟨k1, v1⟩ := kv
    by_cases h1 : k1 = k
    · subst h1
      by_cases h2 : k1 = q <;> simp [dictInsert, alookup, h2]
    · by_cases h2 : k1 = q
      · subst h2
        have : ¬k = k1 := fun h => h1 h.symm
        simp [dictInsert, alookup, h1, this]
      · simp [dictInsert, alookup, h1, h2, ih]

theorem alookup_insertAll (q : String) :
    ∀ (ps acc : List (String × Json)),
      alookup q (insertAll acc ps) =
        optOr (alookup q ps.reverse) (alookup q acc) := by
  intro ps
  induction ps with
  | nil => intro acc; simp [insertAll, alookup, optOr]
  | cons kv rest ih =>
    intro acc
    obtain ⟨k, v⟩ := kv
    have step : insertAll acc ((k, v) :: rest) =
        insertAll (dictInsert acc k v) rest := rfl
    rw [step, ih]
    rw [List.reverse_cons, alookup_append, alookup_dictInsert]
    by_cases hk : k = q
    · subst hk
      cases alookup k rest.reverse <;> simp [alookup, optOr]
    · have : ¬k = q := hk
      cases alookup q rest.reverse <;> simp [alookup, optOr, this]

theorem dropWhile_all {q : Char → Bool} :
    ∀ l : List Char, (∀ c ∈ l, q c = true) → l.dropWhile q = [] := by
  intro l
  induction l with
  | nil => intro _; rfl
  | cons c rest ih =>
    intro h
    have hc : q c = true := h c (List.mem_cons_self c rest)
    have hrest : ∀ x ∈ rest, q x = true := fun x hx => h x (List.mem_cons_of_mem c hx)
    simp [List.dropWhile, hc, ih hrest]

theorem pyStripL_all_ws (l : List Char) (h : ∀ c ∈ l, pyWhitespace c = true) :
    pyStripL l = [] := by
  unfold pyStripL
  rw [dropWhile_all l h]
  rfl

theorem pySplitComma_ne_nil : ∀ l : List Char, pySplitComma l ≠ [] := by
  intro l
  induction l with
  | nil => simp [pySplitComma]
  | cons c rest ih =>
    simp only [pySplitComma]
    rcases hsp : pySplitComma rest with _ | ⟨p, ps⟩
    · simp
    · by_cases hc : c = ',' <;> simp [hc]

theorem pySplitComma_pieces :
    ∀ l : List Char, (∀ c ∈ l, c = ',' ∨ pyWhitespace c = true) →
      ∀ p ∈ pySplitComma l, ∀ c ∈ p, pyWhitespace c = true := by
  intro l
  induction l with
  | nil =>
    intro _ p hp
    simp [pySplitComma] at hp
    subst hp
    intro c hc
    simp at hc
  | cons c0 rest ih =>
    intro h p hp
    have hrest : ∀ c ∈ rest, c = ',' ∨ pyWhitespace c = true :=
      fun c hc => h c (List.mem_cons_of_mem c0 hc)
    rcases hsp : pySplitComma rest with _ | ⟨p0, ps⟩
    · exact absurd hsp (pySplitComma_ne_nil rest)
    · have ihp : ∀ q ∈ p0 :: ps, ∀ c ∈ q, pyWhitespace c = true := by
        rw [← hsp]; exact ih hrest
      have hstep : pySplitComma (c0 :: rest) =
          if c0 = ',' then [] :: p0 :: ps else (c0 :: p0) :: ps := by
        simp only [pySplitComma, hsp]
      rw [hstep] at hp
      by_cases hc0 : c0 = ','
      · rw [if_pos hc0] at hp
        rcases List.mem_cons.mp hp with hp1 | hp1
        · subst hp1; intro c hc; simp at hc
        · exact ihp p hp1
      · rw [if_neg hc0] at hp
        rcases List.mem_cons.mp hp with hp1 | hp1
        · subst hp1
          intro c hc
          rcases List.mem_cons.mp hc with hce | hcm
          · subst hce
            rcases h c (List.mem_cons_self c rest) with h1 | h1
            · exact absurd h1 hc0
            · exact h1
          · exact ihp p0 (List.mem_cons_self p0 ps) c hcm
        · exact ihp p (List.mem_cons_of_mem p0 hp1)

theorem filterMap_all_none {α β : Type} {f : α → Option β} :
    ∀ l : List α, (∀ a ∈ l, f a = none) → l.filterMap f = [] := by
  intro l
  induction l with
  | nil => intro _; rfl
  | cons a rest ih =>
    intro h
    have ha := h a (List.mem_cons_self a rest)
    have hrest : ∀ x ∈ rest, f x = none := fun x hx => h x (List.mem_cons_of_mem a hx)
    simp [List.filterMap_cons, ha, ih hrest]

theorem filter_length_eq_iff {α : Type} (p : α → Bool) :
    ∀ l : List α, ((l.filter p).length = l.length ↔ ∀ a ∈ l, p a = true) := by
  intro l
  induction l with
  | nil => simp
  | cons a rest ih =>
    by_cases ha : p a = true
    · simp [List.filter_cons, ha, ih]
    · have ha2 : p a = false := by
        cases hpa : p a
        · rfl
        · exact absurd hpa ha
      constructor
      · intro hlen
        exfalso
        simp only [List.filter_cons, ha2, Bool.false_eq_true, if_false,
          List.length_cons] at hlen
        have hle := List.length_filter_le p rest
        omega
      · intro hall
        exact absurd (hall a (List.mem_cons_self a rest)) ha

theorem data_append (a b : String) : (a ++ b).data = a.data ++ b.data := by
  cases a
  cases b
  rfl

theorem pyStartsWith_haha (n : String) :
    pyStartsWith ("HA-" ++ n) "HA-HA-" = pyStartsWith n "HA-" := by
  unfold pyStartsWith
  have hd : ("HA-" ++ n).data = 'H' :: 'A' :: '-' :: n.data := by
    rw [data_append]
    rfl
  have h2 : ("HA-HA-" : String).data = ['H', 'A', '-', 'H', 'A', '-'] := rfl
  have h3 : ("HA-" : String).data = ['H', 'A', '-'] := rfl
  rw [hd, h2, h3]
  simp [isPre]

theorem rename_folder_name (w : World) (fid : Json) (nm : String) :
    (rename_folder w fid nm).name = "HA-" ++ nm := rfl

theorem renameLoop_none_cnt (w : World) :
    ∀ folders cnt, (renameLoop w cnt folders).2.2 = none →
      (renameLoop w cnt folders).1 =
        cnt + successesIn (renameLoop w cnt folders).2.1 := by
  intro folders
  induction folders with
  | nil => intro cnt _; simp [renameLoop, successesIn]
  | cons kv rest ih =>
    intro cnt h
    obtain ⟨name, fid⟩ := kv
    cases hp : pyStartsWith name "HA-" with
    | true =>
      simp only [renameLoop, hp, if_true] at h ⊢
      exact ih cnt h
    | false =>
      cases ho : (rename_folder w fid name).outcome with
      | ok b =>
        cases b with
        | true =>
          simp only [renameLoop, hp, Bool.false_eq_true, if_false, ho] at h ⊢
          have := ih (cnt + 1) h
          simp only [successesIn, List.filter_cons, isOkTrue, ho,
            if_true, List.length_cons] at *
          omega
        | false =>
          simp only [renameLoop, hp, Bool.false_eq_true, if_false, ho] at h ⊢
          have := ih cnt h
          simp only [successesIn, List.filter_cons, isOkTrue, ho,
            Bool.false_eq_true, if_false] at *
          omega
      | error e =>
        simp only [renameLoop, hp, Bool.false_eq_true, if_false, ho] at h
        simp at h

theorem renameLoop_all_prefixed (w : World) :
    ∀ folders cnt, (∀ kv ∈ folders, pyStartsWith kv.1 "HA-" = true) →
      renameLoop w cnt folders = (cnt, [], none) := by
  intro folders
  induction folders with
  | nil => intro cnt _; rfl
  | cons kv rest ih =>
    intro cnt h
    obtain ⟨name, fid⟩ := kv
    have hp : pyStartsWith name "HA-" = true :=
      h (name, fid) (List.mem_cons_self _ rest)
    have hrest : ∀ kv ∈ rest, pyStartsWith kv.1 "HA-" = true :=
      fun kv hkv => h kv (List.mem_cons_of_mem _ hkv)
    simp only [renameLoop, hp, if_true]
    exact ih cnt hrest

theorem renameLoop_puts_from (w : World) :
    ∀ folders cnt req, req ∈ (renameLoop w cnt folders).2.1 →
      ∃ name fid, (name, fid) ∈ folders ∧ pyStartsWith name "HA-" = false ∧
        req = rename_folder w fid name := by
  intro folders
  induction folders with
  | nil => intro cnt req h; simp [renameLoop] at h
  | cons kv rest ih =>
    intro cnt req h
    obtain ⟨name, fid⟩ := kv
    cases hp : pyStartsWith name "HA-" with
    | true =>
      simp only [renameLoop, hp, if_true] at h
      obtain ⟨n, f, hmem, hnp, heq⟩ := ih cnt req h
      exact ⟨n, f, List.mem_cons_of_mem _ hmem, hnp, heq⟩
    | false =>
      cases ho : (rename_folder w fid name).outcome with
      | ok b =>
        cases b with
        | true =>
          simp only [renameLoop, hp, Bool.false_eq_true, if_false, ho] at h
          rcases List.mem_cons.mp h with heq | hmem
          · exact ⟨name, fid, List.mem_cons_self _ rest, hp, heq⟩
          · obtain ⟨n, f, hm, hnp, he⟩ := ih (cnt + 1) req hmem
            exact ⟨n, f, List.mem_cons_of_mem _ hm, hnp, he⟩
        | false =>
          simp only [renameLoop, hp, Bool.false_eq_true, if_false, ho] at h
          rcases List.mem_cons.mp h with heq | hmem
          · exact ⟨name, fid, List.mem_cons_self _ rest, hp, heq⟩
          · obtain ⟨n, f, hm, hnp, he⟩ := ih cnt req hmem
            exact ⟨n, f, List.mem_cons_of_mem _ hm, hnp, he⟩
      | error e =>
        simp only [renameLoop, hp, Bool.false_eq_true, if_false, ho] at h
        rcases List.mem_singleton.mp h with heq
        exact ⟨name, fid, List.mem_cons_self _ rest, hp, heq⟩

theorem profileBody_err (w : World) (e : PyErr)
    (h : list_existing_folders w.get = .error e) :
    profileBody w = ([], .error e) := by
  unfold profileBody
  rw [h]

theorem profileBody_nil (w : World)
    (h : list_existing_folders w.get = .ok []) :
    profileBody w = ([], .ok true) := by
  unfold profileBody
  rw [h]

theorem profileBody_cons (w : World) (kv0 : String × Json)
    (rest : List (String × Json))
    (h : list_existing_folders w.get = .ok (kv0 :: rest)) :
    profileBody w =
      ((renameLoop w 0 (kv0 :: rest)).2.1,
        match (renameLoop w 0 (kv0 :: rest)).2.2 with
        | some e => .error e
        | none =>
          .ok (decide ((renameLoop w 0 (kv0 :: rest)).1 =
            ((kv0 :: rest).filter
              (fun kv => !pyStartsWith kv.1 "HA-")).length))) := by
  unfold profileBody
  rw [h]
  rcases hr : (renameLoop w 0 (kv0 :: rest)).2.2 with _ | e <;> simp [hr]

theorem profile_puts_eq (w : World) :
    (rename_folders_for_profile w).1 = (profileBody w).1 := by
  unfold rename_folders_for_profile
  rcases hpb : profileBody w with ⟨puts, res⟩
  cases res <;> rfl

theorem profile_result_ok (w : World) (b : Bool)
    (h : (profileBody w).2 = .ok b) :
    (rename_folders_for_profile w).2 = b := by
  unfold rename_folders_for_profile
  rcases hpb : profileBody w with ⟨puts, res⟩
  rw [hpb] at h
  simp at h
  cases res with
  | ok b2 => simp at h; rw [h]
  | error e => simp at h

theorem listingFold_wf :
    ∀ (records : List Json) (acc : List (String × Json)),
      (∀ f ∈ records, wfRecord f = true) →
      listingFold acc records =
        .ok (insertAll acc (records.filterMap specIncludedRecord)) := by
  intro records
  induction records with
  | nil => intro acc _; simp [listingFold, insertAll]
  | cons f rest ih =>
    intro acc h
    have hf : wfRecord f = true := h f (List.mem_cons_self f rest)
    have hrest : ∀ g ∈ rest, wfRecord g = true :=
      fun g hg => h g (List.mem_cons_of_mem f hg)
    cases f with
    | null => simp [wfRecord] at hf
    | bool b => simp [wfRecord] at hf
    | num n => simp [wfRecord] at hf
    | str s => simp [wfRecord] at hf
    | arr elems => simp [wfRecord] at hf
    | obj fields =>
      rcases hg : alookup "group" fields with _ | gv
      · simp only [listingFold, pyDictGet, hg, Option.getD_none, pyTruthy,
          Bool.not_false, if_true]
        rw [ih acc hrest]
        simp [specIncludedRecord, hg, List.filterMap_cons]
      · cases gv with
        | str s =>
          rcases hpk : alookup "PK" fields with _ | pkv
          · by_cases hs : s = ""
            · subst hs
              simp only [listingFold, pyDictGet, hg, Option.getD_some, pyTruthy]
              rw [if_pos (by simp)]
              rw [ih acc hrest]
              simp [specIncludedRecord, hg, hpk, List.filterMap_cons]
            · simp only [listingFold, pyDictGet, hg, hpk, Option.getD_some,
                Option.getD_none, pyTruthy]
              rw [if_neg (by simp [hs])]
              rw [if_pos (by simp)]
              rw [ih acc hrest]
              simp [specIncludedRecord, hg, hpk, List.filterMap_cons]
          · cases pkv with
            | str pk =>
              by_cases hs : s = ""
              · subst hs
                simp only [listingFold, pyDictGet, hg, Option.getD_some, pyTruthy]
                rw [if_pos (by simp)]
                rw [ih acc hrest]
                simp [specIncludedRecord, hg, hpk, List.filterMap_cons]
              · by_cases hpke : pk = ""
                · subst hpke
                  simp only [listingFold, pyDictGet, hg, hpk, Option.getD_some,
                    pyTruthy]
                  rw [if_neg (by simp [hs])]
                  rw [if_pos (by simp)]
                  rw [ih acc hrest]
                  simp [specIncludedRecord, hg, hpk, hs, List.filterMap_cons]
                · simp only [listingFold, pyDictGet, hg, hpk, Option.getD_some,
                    pyTruthy]
                  rw [if_neg (by simp [hs])]
                  rw [if_neg (by simp [hpke])]
                  simp only [pySubscript, hg, hpk, pyStripJson]
                  rw [ih (dictInsert acc (pyStrip s) (Json.str pk)) hrest]
                  simp only [specIncludedRecord, hg, hpk, List.filterMap_cons]
                  rw [if_pos ⟨hs, hpke⟩]
                  rfl
            | null => simp [wfRecord, hg, hpk, strFieldOk] at hf
            | bool b => simp [wfRecord, hg, hpk, strFieldOk] at hf
            | num n => simp [wfRecord, hg, hpk, strFieldOk] at hf
            | arr elems => simp [wfRecord, hg, hpk, strFieldOk] at hf
            | obj fs => simp [wfRecord, hg, hpk, strFieldOk] at hf
        | null => simp [wfRecord, hg, strFieldOk] at hf
        | bool b => simp [wfRecord, hg, strFieldOk] at hf
        | num n => simp [wfRecord, hg, strFieldOk] at hf
        | arr elems => simp [wfRecord, hg, strFieldOk] at hf
        | obj fs => simp [wfRecord, hg, strFieldOk] at hf

theorem renameLoop_some_lt (w : World) :
    ∀ folders cnt e, (renameLoop w cnt folders).2.2 = some e →
      successesIn (renameLoop w cnt folders).2.1 <
        (folders.filter (fun kv => !pyStartsWith kv.1 "HA-")).length := by
  intro folders
  induction folders with
  | nil => intro cnt e h; simp [renameLoop] at h
  | cons kv rest ih =>
    intro cnt e h
    obtain ⟨name, fid⟩ := kv
    cases hp : pyStartsWith name "HA-" with
    | true =>
      simp only [renameLoop, hp, if_true] at h ⊢
      simpa [List.filter_cons, hp] using ih cnt e h
    | false =>
      cases ho : (rename_folder w fid name).outcome with
      | ok b =>
        cases b with
        | true =>
          simp only [renameLoop, hp, Bool.false_eq_true, if_false, ho] at h ⊢
          have := ih (cnt + 1) e h
          simp only [successesIn, List.filter_cons, isOkTrue, ho, if_true,
            List.length_cons, hp, Bool.not_false] at *
          omega
        | false =>
          simp only [renameLoop, hp, Bool.false_eq_true, if_false, ho] at h ⊢
          have := ih cnt e h
          simp only [successesIn, List.filter_cons, isOkTrue, ho,
            Bool.false_eq_true, if_false, List.length_cons, hp,
            Bool.not_false, if_true] at *
          omega
      | error e2 =>
        simp only [renameLoop, hp, Bool.false_eq_true, if_false, ho] at h ⊢
        simp [successesIn, isOkTrue, ho, List.filter_cons, hp]

/-! ### Claim theorems -/

/-- Claim C3 (code behaviour at the claimed scenario): against a transport that
fails on every attempt, `_api_get` and `_api_put` do NOT attempt the request 3
times with sleeps of 1s and 2s and then surface the transport failure; instead
each makes exactly one attempt, performs no sleep, and raises `NameError`
(the module never imports `time`, so the retry path crashes). -/
theorem c3_retry_exhaustion_bug :
    api_get (fun _ => (Attempt.fail : Attempt Json)) =
      { attempts := 1, sleeps := [], result := .error .nameError } ∧
    api_put (fun _ => Attempt.fail) =
      { attempts := 1, sleeps := [], result := .error .nameError } :=
  ⟨rfl, rfl⟩

/-- Claim C4 (code behaviour at the claimed scenario): when the listing GET
fails at the transport level, `list_existing_folders` does NOT return an empty
mapping; the retry path raises `NameError`, which is not in the caught
`(httpx.HTTPError, KeyError)` tuple, so the error propagates and the profile
is reported as failed instead of vacuously successful. -/
theorem c4_fail_soft_listing_bug :
    list_existing_folders failGetT = .error .nameError ∧
    rename_folders_for_profile wGetFail = ([], false) :=
  ⟨rfl, rfl⟩

/-- Claim C5 (code behaviour at the claimed scenario): in a profile with two
unprefixed folders A (id g1, PUT fails) and B (id g2, PUT would succeed), the
failed rename of A raises `NameError` out of `rename_folder` (whose `except`
clause only catches `httpx.HTTPError`), aborting the loop: only one PUT is
issued, folder B is never attempted, and the profile returns failure. -/
theorem c5_partial_failure_bug :
    (rename_folders_for_profile wPartialFail).1.map PutReq.folderId =
      [Json.str "g1"] ∧
    (rename_folders_for_profile wPartialFail).1.map PutReq.outcome =
      [Except.error PyErr.nameError] ∧
    (rename_folders_for_profile wPartialFail).2 = false :=
  ⟨rfl, rfl, rfl⟩

/-- Claim C1: for every profile whose folder index was fetched, the
per-profile operation returns success exactly when the number of successful
renames equals the number of folders in the fetched index whose name does not
start with "HA-" (vacuously true on an empty index); and any unexpected
exception during the processing is converted into a profile-level failure
return rather than propagated. -/
theorem c1_profile_success_iff (w : World) :
    (∀ folders, list_existing_folders w.get = .ok folders →
      ((rename_folders_for_profile w).2 = true ↔
        successesIn (rename_folders_for_profile w).1 =
          (folders.filter (fun kv => !pyStartsWith kv.1 "HA-")).length)) ∧
    (∀ e, (profileBody w).2 = .error e →
      (rename_folders_for_profile w).2 = false) := by
  have herr : ∀ e, (profileBody w).2 = .error e →
      (rename_folders_for_profile w).2 = false := by
    intro e herr
    unfold rename_folders_for_profile
    rcases hpb : profileBody w with ⟨puts, res⟩
    rw [hpb] at herr
    simp at herr
    cases res with
    | ok b2 => simp at herr
    | error e2 => rfl
  refine ⟨?_, herr⟩
  intro folders hlist
  cases folders with
  | nil =>
    have hpb := profileBody_nil w hlist
    rw [profile_result_ok w true (by rw [hpb]), profile_puts_eq w, hpb]
    simp [successesIn]
  | cons kv0 rest =>
    have hpb := profileBody_cons w kv0 rest hlist
    rcases hr : (renameLoop w 0 (kv0 :: rest)).2.2 with _ | e
    · have hpb2 : profileBody w =
          ((renameLoop w 0 (kv0 :: rest)).2.1,
            .ok (decide ((renameLoop w 0 (kv0 :: rest)).1 =
              ((kv0 :: rest).filter
                (fun kv => !pyStartsWith kv.1 "HA-")).length))) := by
        rw [hpb, hr]
      have hcnt := renameLoop_none_cnt w (kv0 :: rest) 0 hr
      rw [profile_result_ok w _ (by rw [hpb2]), profile_puts_eq w, hpb2]
      simp only [Nat.zero_add] at hcnt
      simp [← hcnt]
    · have hlt := renameLoop_some_lt w (kv0 :: rest) 0 e hr
      have hpb2 : profileBody w =
          ((renameLoop w 0 (kv0 :: rest)).2.1, .error e) := by
        rw [hpb, hr]
      rw [herr e (by rw [hpb2]), profile_puts_eq w, hpb2]
      constructor
      · intro hfalse; exact absurd hfalse (by decide)
      · intro hlen
        rw [hlen] at hlt
        exact absurd hlt (lt_irrefl _)

/-- Claim C1 witness: a profile with one unprefixed folder whose rename
succeeds satisfies the hypothesis, and the equivalence makes it report
success. -/
theorem c1_witness : (rename_folders_for_profile wOneFolder).2 = true := by
  have h := (c1_profile_success_iff wOneFolder).1 [("Ads", Json.str "g1")]
    (by rfl)
  exact h.mpr (by decide)

/-- Claim C2: renaming is idempotent.  If every folder name in the fetched
index already starts with "HA-", the per-profile operation issues zero PUT
requests and reports full success; and every PUT that any run does issue
targets a folder whose name lacked the prefix, with payload name exactly
"HA-" prepended once — no payload name ever starts with "HA-HA-". -/
theorem c2_idempotence (w : World) (folders : List (String × Json))
    (hlist : list_existing_folders w.get = .ok folders) :
    ((∀ kv ∈ folders, pyStartsWith kv.1 "HA-" = true) →
      rename_folders_for_profile w = ([], true)) ∧
    (∀ req ∈ (rename_folders_for_profile w).1,
      ∃ name fid, (name, fid) ∈ folders ∧ pyStartsWith name "HA-" = false ∧
        req.name = "HA-" ++ name ∧
        pyStartsWith req.name "HA-HA-" = false) := by
  constructor
  · intro hall
    cases folders with
    | nil =>
      have hpb := profileBody_nil w hlist
      unfold rename_folders_for_profile
      rw [hpb]
    | cons kv0 rest =>
      have hloop := renameLoop_all_prefixed w (kv0 :: rest) 0 hall
      have hpb := profileBody_cons w kv0 rest hlist
      rw [hloop] at hpb
      have hfilter : (kv0 :: rest).filter
          (fun kv => !pyStartsWith kv.1 "HA-") = [] := by
        rw [List.filter_eq_nil_iff]
        intro kv hkv
        simp [hall kv hkv]
      rw [hfilter] at hpb
      simp only [List.length_nil, decide_eq_true_eq] at hpb
      unfold rename_folders_for_profile
      rw [hpb]
      simp
  · intro req hreq
    rw [profile_puts_eq w] at hreq
    cases hfolders : folders with
    | nil =>
      rw [hfolders] at hlist
      rw [profileBody_nil w hlist] at hreq
      simp at hreq
    | cons kv0 rest =>
      rw [hfolders] at hlist
      rw [profileBody_cons w kv0 rest hlist] at hreq
      have hreq2 : req ∈ (renameLoop w 0 (kv0 :: rest)).2.1 := by
        rcases hr : (renameLoop w 0 (kv0 :: rest)).2.2 with _ | e <;>
          simpa [hr] using hreq
      obtain ⟨name, fid, hmem, hnp, heq⟩ :=
        renameLoop_puts_from w (kv0 :: rest) 0 req hreq2
      refine ⟨name, fid, hfolders ▸ hmem, hnp, ?_, ?_⟩
      · rw [heq]; rfl
      · rw [heq, rename_folder_name, pyStartsWith_haha, hnp]

/-- Claim C2 witness: a profile whose single folder is already prefixed issues
no PUT and reports success. -/
theorem c2_witness : rename_folders_for_profile wAllPrefixed = ([], true) :=
  (c2_idempotence wAllPrefixed [("HA-Social", Json.str "g2")] rfl).1 (by decide)

/-- Claim C8: for every listing response whose records are objects with
string-valued (or absent) name and identifier fields, the folder index the
lister produces is exactly the dict of the records that have both a non-empty
name field and a non-empty identifier field, keyed by trimmed name
(`specIncludedRecord` restates the spec's inclusion rule); and for duplicate
trimmed names the identifier of the later record wins: looking a key up in the
index agrees with looking it up in the reversed list of included records. -/
theorem c8_lister_index (records : List Json)
    (hwf : ∀ f ∈ records, wfRecord f = true) :
    list_existing_folders (getterOf records) =
      .ok (insertAll [] (records.filterMap specIncludedRecord)) ∧
    ∀ q, alookup q (insertAll [] (records.filterMap specIncludedRecord)) =
      alookup q (records.filterMap specIncludedRecord).reverse := by
  constructor
  · have hbody : listBody (getterOf records) =
        .ok (insertAll [] (records.filterMap specIncludedRecord)) := by
      unfold listBody api_get getterOf
      simp only [retryFrom, MAX_RETRIES]
      simp only [pyDictGet, alookup, if_pos rfl, Option.getD_some, pyIter]
      exact listingFold_wf records [] hwf
    unfold list_existing_folders
    rw [hbody]
  · intro q
    rw [alookup_insertAll q (records.filterMap specIncludedRecord) []]
    exact optOr_none _

/-- Claim C8 witness: two records whose names trim to the same key; the later
record's identifier g2 wins. -/
theorem c8_witness :
    list_existing_folders (getterOf c8recs) =
      .ok (insertAll [] (c8recs.filterMap specIncludedRecord)) ∧
    alookup "Ads" (insertAll [] (c8recs.filterMap specIncludedRecord)) =
      alookup "Ads" (c8recs.filterMap specIncludedRecord).reverse := by
  have h := c8_lister_index c8recs (by decide)
  exact ⟨h.1, h.2 "Ads"⟩

/-- Claim C9: a listing record whose name field is a non-empty string of only
whitespace characters and whose identifier field is non-empty passes the
non-empty check (applied before trimming) and lands in the index under the
empty-string key; the orchestrator then treats that entry as needing the
prefix and issues exactly one PUT renaming it to exactly "HA-". -/
theorem c9_whitespace_name (s pk : String) (hs : s ≠ "")
    (hws : ∀ c ∈ s.data, pyWhitespace c = true) (hpk : pk ≠ "") :
    list_existing_folders (singleRecordWorld s pk).get =
      .ok [("", Json.str pk)] ∧
    (rename_folders_for_profile (singleRecordWorld s pk)).1.map PutReq.name =
      ["HA-"] ∧
    (rename_folders_for_profile (singleRecordWorld s pk)).2 = true := by
  have hstrip : pyStrip s = "" := by
    unfold pyStrip
    rw [pyStripL_all_ws s.data hws]
  have hts : pyTruthy (Json.str s) = true := by simp [pyTruthy, hs]
  have htpk : pyTruthy (Json.str pk) = true := by simp [pyTruthy, hpk]
  have hfold : listingFold []
      [Json.obj [("group", Json.str s), ("PK", Json.str pk)]] =
      .ok [("", Json.str pk)] := by
    simp [listingFold, pyDictGet, alookup, pySubscript, pyStripJson,
      dictInsert, hts, htpk, hstrip]
  have hlist : list_existing_folders (singleRecordWorld s pk).get =
      .ok [("", Json.str pk)] := by
    have hstep : listBody (singleRecordWorld s pk).get =
        listingFold []
          [Json.obj [("group", Json.str s), ("PK", Json.str pk)]] := rfl
    unfold list_existing_folders
    rw [hstep, hfold]
  refine ⟨hlist, ?_, ?_⟩
  · rw [profile_puts_eq _,
      profileBody_cons (singleRecordWorld s pk) ("", Json.str pk) [] hlist]
    rfl
  · have hpb := profileBody_cons (singleRecordWorld s pk)
      ("", Json.str pk) [] hlist
    refine profile_result_ok _ _ ?_
    rw [hpb]
    rfl

/-- Claim C9 witness: the record with name " " (a single space) and id "g1" is
indexed under "" and renamed to exactly "HA-". -/
theorem c9_witness :
    list_existing_folders (singleRecordWorld " " "g1").get =
      .ok [("", Json.str "g1")] ∧
    (rename_folders_for_profile (singleRecordWorld " " "g1")).1.map
      PutReq.name = ["HA-"] ∧
    (rename_folders_for_profile (singleRecordWorld " " "g1")).2 = true :=
  c9_whitespace_name " " "g1" (by decide) (by decide) (by decide)

/-- Claim C6: if the credential is empty or missing, or the profile list is
empty, `main` terminates immediately with exit status 1 and makes zero HTTP
calls. -/
theorem c6_config_precondition (token : Option String) (profileEnv : String)
    (ws : String → World)
    (h : truthyOptStr token = false ∨ PROFILE_IDS profileEnv = []) :
    mainRun token profileEnv ws = { exitCode := 1, httpCalls := 0 } := by
  unfold mainRun
  rw [if_pos h]

/-- Claim C6 witness: with no token and an absent (empty) profile variable the
run exits 1 with zero HTTP calls. -/
theorem c6_witness :
    mainRun none "" wsTrivial = { exitCode := 1, httpCalls := 0 } :=
  c6_config_precondition none "" wsTrivial (Or.inl rfl)

/-- Claim C7: with a valid token and a non-empty profile list, the exit status
is 0 exactly when every profile's per-profile operation reported full success,
and 1 exactly when at least one profile was not fully successful. -/
theorem c7_exit_status (token : Option String) (profileEnv : String)
    (ws : String → World) (htok : truthyOptStr token = true)
    (hpids : PROFILE_IDS profileEnv ≠ []) :
    ((mainRun token profileEnv ws).exitCode = 0 ↔
      ∀ pid ∈ PROFILE_IDS profileEnv,
        (rename_folders_for_profile (ws pid)).2 = true) ∧
    ((mainRun token profileEnv ws).exitCode = 1 ↔
      ∃ pid ∈ PROFILE_IDS profileEnv,
        (rename_folders_for_profile (ws pid)).2 = false) := by
  have hguard : ¬(truthyOptStr token = false ∨ PROFILE_IDS profileEnv = []) := by
    rintro (h1 | h1)
    · rw [htok] at h1; simp at h1
    · exact hpids h1
  unfold mainRun
  rw [if_neg hguard]
  simp only []
  set pids := PROFILE_IDS profileEnv with hpidsdef
  have hiff := filter_length_eq_iff
    (fun pid => (rename_folders_for_profile (ws pid)).2) pids
  by_cases hall : ∀ pid ∈ pids, (rename_folders_for_profile (ws pid)).2 = true
  · rw [if_pos (hiff.mpr hall)]
    constructor
    · constructor
      · intro _; exact hall
      · intro _; rfl
    · constructor
      · intro h01; exact absurd h01 (by decide)
      · rintro ⟨pid, hmem, hfalse⟩
        rw [hall pid hmem] at hfalse
        exact absurd hfalse (by decide)
  · rw [if_neg (fun hlen => hall (hiff.mp hlen))]
    constructor
    · constructor
      · intro h10; exact absurd h10 (by decide)
      · intro h; exact absurd h hall
    · constructor
      · intro _
        rcases not_forall.mp hall with ⟨pid, hpid⟩
        rcases Classical.not_imp.mp hpid with ⟨hmem, hne⟩
        refine ⟨pid, hmem, ?_⟩
        cases hb : (rename_folders_for_profile (ws pid)).2
        · rfl
        · exact absurd hb hne
      · intro _; rfl

/-- Claim C7 witness: one profile with an empty listing reports success and the
run exits 0. -/
theorem c7_witness : (mainRun (some "t") "p1" wsTrivial).exitCode = 0 :=
  ((c7_exit_status (some "t") "p1" wsTrivial (by decide) (by decide)).1).mpr
    (by decide)

/-- Claim C10: the profile list is the comma-separated environment value with
each entry trimmed and empty entries discarded; consequently any value made of
only commas and whitespace yields an empty profile list, and the run aborts
with exit status 1 and zero HTTP calls exactly as when the variable is absent
(empty). -/
theorem c10_profile_list_parsing (token : Option String) (ws : String → World)
    (profileEnv : String)
    (h : ∀ c ∈ profileEnv.data, c = ',' ∨ pyWhitespace c = true) :
    PROFILE_IDS profileEnv = [] ∧
    mainRun token profileEnv ws = mainRun token "" ws ∧
    (mainRun token profileEnv ws).exitCode = 1 := by
  have hempty : PROFILE_IDS profileEnv = [] := by
    unfold PROFILE_IDS
    apply filterMap_all_none
    intro p hp
    have hws : ∀ c ∈ p, pyWhitespace c = true :=
      pySplitComma_pieces profileEnv.data h p hp
    rw [pyStripL_all_ws p hws]
    rfl
  have habsent : PROFILE_IDS "" = [] := rfl
  have h1 : mainRun token profileEnv ws = { exitCode := 1, httpCalls := 0 } := by
    unfold mainRun
    rw [if_pos (Or.inr hempty)]
  have h2 : mainRun token "" ws = { exitCode := 1, httpCalls := 0 } := by
    unfold mainRun
    rw [if_pos (Or.inr habsent)]
  exact ⟨hempty, by rw [h1, h2], by rw [h1]⟩

/-- Claim C10 witness: the value " ,, " (spaces and commas only) behaves as an
absent profile list. -/
theorem c10_witness :
    PROFILE_IDS " ,, " = [] ∧
    mainRun (some "t") " ,, " wsTrivial = mainRun (some "t") "" wsTrivial ∧
    (mainRun (some "t") " ,, " wsTrivial).exitCode = 1 :=
  c10_profile_list_parsing (some "t") wsTrivial " ,, " (by decide)
